import Mathlib

/-!
Verification of the span/event formatting and lifecycle layer of
`tracing-libatrace` (`src/lib.rs`).

The embedding models:
* a presented field as a `(name, debug-rendered value)` pair (`Field`);
* the two visitors `SpanVisitor` / `EventVisitor` and their
  `record_debug` methods (lines 168-189 and 196-212 of `src/lib.rs`);
* the per-span extension storage holding `SpanFields` labels (`Store`);
* the `Layer` callbacks `on_new_span`, `on_record`, `on_event`,
  `on_enter`, `on_exit`, `on_close` (lines 88-158), with kernel marker
  writes (`TRACE_BEGIN!` / `TRACE_END!`) modelled as an emitted list of
  `Marker` values, and the `expect` panics on missing registry / extension
  entries modelled as `Option.none` results.

The `tracing-log` feature gate guarding the reserved-prefix skip arm is
modelled as an explicit boolean parameter `tracing_log`.
-/

namespace TracingAtrace

/-- A field presented by the tracing framework during one callback:
its name and the debug rendering of its value. -/
structure Field where
  name : String
  value : String
  deriving DecidableEq

/-- The reserved metadata name prelude used by the `tracing-log`
compatibility skip rule (`name.starts_with("log.")`). -/
def logDot : String := "log."

/-- Executable starts-with test on the character lists of two strings,
modelling `str::starts_with`. -/
def charsStart : List Char → List Char → Bool
  | _, [] => true
  | [], _ :: _ => false
  | c :: cs, p :: ps => (c == p) && charsStart cs ps

/-- Predicate strStarts s p models `s.starts_with(p)`. -/
def strStarts (s p : String) : Bool := charsStart s.data p.data

/-- A marker written to the kernel trace sink: `TRACE_BEGIN!` carries a
payload, `TRACE_END!` carries none. -/
inductive Marker where
  | beginMarker (payload : String)
  | endMarker
  deriving DecidableEq

/-- The layer configuration (`struct AtraceLayer`, line 51-54): the
optional data-field name set by `with_data_field`. -/
structure AtraceLayer where
  data_field : Option String
  deriving DecidableEq

/-- Constructor `AtraceLayer::new` on the unix path (lines 59-63):
the `data_field` starts out as `None`. -/
def AtraceLayer.new : AtraceLayer := { data_field := none }

/-- Configuration setter `AtraceLayer::with_data_field` (lines 73-76):
stores the given optional field name in the configuration. -/
def AtraceLayer.with_data_field (l : AtraceLayer) (x : Option String) : AtraceLayer :=
  { l with data_field := x }

/-- The span visitor state (lines 163-166): the output buffer and the
optional exclusive field filter. -/
structure SpanVisitor where
  buf : String
  futobj_field : Option String
  deriving DecidableEq

/-- Method `SpanVisitor::record_debug` (lines 168-189).  With a `futobj_field`
set, only the matching field is appended (bare) and everything else is
dropped.  Otherwise: `message` appends `" value"`, a `log.`-named field
is skipped when the `tracing-log` feature is on, any other field appends
`" name=value"` (the `comma` variable in the source is the empty string,
so the separator written by the format string is a single space). -/
def SpanVisitor.record_debug (tracing_log : Bool) (v : SpanVisitor) (f : Field) : SpanVisitor :=
  match v.futobj_field with
  | some futobj =>
      if futobj = f.name then { v with buf := v.buf ++ f.value } else v
  | none =>
      if f.name = "message" then
        { v with buf := v.buf ++ (" " ++ f.value) }
      else if tracing_log && strStarts f.name logDot then
        v
      else
        { v with buf := v.buf ++ (" " ++ f.name ++ "=" ++ f.value) }

/-- Visiting a field sequence, `attrs.record(&mut SpanVisitor res)` or
`values.record(..)`: the framework presents each field to
`record_debug` in order. -/
def SpanVisitor.record (tracing_log : Bool) (v : SpanVisitor) (fields : List Field) : SpanVisitor :=
  fields.foldl (SpanVisitor.record_debug tracing_log) v

/-- The event visitor state (lines 192-194). -/
structure EventVisitor where
  buf : String
  deriving DecidableEq

/-- Method `EventVisitor::record_debug` (lines 196-212): `message` appends
`"value "`, a `log.`-named field is skipped when the `tracing-log`
feature is on, any other field appends `"name=value "`. -/
def EventVisitor.record_debug (tracing_log : Bool) (v : EventVisitor) (f : Field) : EventVisitor :=
  if f.name = "message" then
    { v with buf := v.buf ++ (f.value ++ " ") }
  else if tracing_log && strStarts f.name logDot then
    v
  else
    { v with buf := v.buf ++ (f.name ++ "=" ++ f.value ++ " ") }

/-- Visiting an event field sequence: each field in order. -/
def EventVisitor.record (tracing_log : Bool) (v : EventVisitor) (fields : List Field) : EventVisitor :=
  fields.foldl (EventVisitor.record_debug tracing_log) v

/-- Span identifiers handed out by the external framework. -/
abbrev SpanId := Nat

/-- The per-span extension storage holding each live span's `SpanFields`
label, keyed by span id. -/
structure Store where
  entries : List (SpanId × String)
  deriving DecidableEq

/-- Lookup of the `SpanFields` entry for a span id. -/
def lookupEntry : List (SpanId × String) → SpanId → Option String
  | [], _ => none
  | (k, v) :: rest, i => if k = i then some v else lookupEntry rest i

/-- Replace-or-insert of the `SpanFields` entry for a span id
(`extensions_mut().insert(SpanFields(buf))`). -/
def setEntry : List (SpanId × String) → SpanId → String → List (SpanId × String)
  | [], i, lb => [(i, lb)]
  | (k, v) :: rest, i, lb =>
      if k = i then (i, lb) :: rest else (k, v) :: setEntry rest i lb

/-- Removal of the `SpanFields` entry for a span id
(`extensions_mut().remove::<SpanFields>()`). -/
def removeEntry : List (SpanId × String) → SpanId → List (SpanId × String)
  | [], _ => []
  | (k, v) :: rest, i =>
      if k = i then removeEntry rest i else (k, v) :: removeEntry rest i

/-- Get the label stored for a span id, `none` when no live entry. -/
def Store.get (st : Store) (i : SpanId) : Option String := lookupEntry st.entries i

/-- Store the label for a span id. -/
def Store.set (st : Store) (i : SpanId) (lb : String) : Store := ⟨setEntry st.entries i lb⟩

/-- The shared label computation of `on_new_span` (lines 90-102) and
`on_record` (lines 112-121): start the buffer with the span's name, run
the presented fields through a `SpanVisitor` with `futobj_field: None`,
then if the visited data is nonempty append a comma followed by the
data. -/
def computeLabel (tracing_log : Bool) (name : String) (fields : List Field) : String :=
  let buf := name
  let data := (SpanVisitor.record tracing_log { buf := "", futobj_field := none } fields).buf
  if data.isEmpty then buf else buf ++ ("," ++ data)

/-- Callback `on_new_span` (lines 88-104): compute the label from the span's name
and initial fields and insert it as the span's `SpanFields` extension.
The layer configuration `l` is taken by `&self` but never consulted. -/
def AtraceLayer.on_new_span (l : AtraceLayer) (tracing_log : Bool) (st : Store)
    (i : SpanId) (name : String) (fields : List Field) : Store :=
  st.set i (computeLabel tracing_log name fields)

/-- Callback `on_record` (lines 106-127): fetch the stored label (`expect`
panics, modelled as `none`, when missing), recompute the label from the
span's name and the passed fields, and overwrite the stored label only
when the recomputed text differs.  The boolean records whether the
write `*old_buf = buf` happened. -/
def AtraceLayer.on_record (l : AtraceLayer) (tracing_log : Bool) (st : Store)
    (i : SpanId) (name : String) (fields : List Field) : Option (Store × Bool) :=
  match st.get i with
  | none => none
  | some old_buf =>
      let buf := computeLabel tracing_log name fields
      if buf ≠ old_buf then some (st.set i buf, true) else some (st, false)

/-- Callback `on_event` (lines 129-139): run the event's fields through an
`EventVisitor`, then emit `TRACE_BEGIN!("{}", &buf)` followed by
`TRACE_END!()`. -/
def AtraceLayer.on_event (l : AtraceLayer) (tracing_log : Bool) (fields : List Field) :
    List Marker :=
  let buf := (EventVisitor.record tracing_log { buf := "" } fields).buf
  [Marker.beginMarker buf, Marker.endMarker]

/-- Callback `on_enter` (lines 141-147): fetch the stored `SpanFields` label
(`expect` panics, modelled as `none`, when missing) and emit
`TRACE_BEGIN!("{}", &fields.0)`. -/
def AtraceLayer.on_enter (l : AtraceLayer) (st : Store) (i : SpanId) :
    Option (List Marker) :=
  match st.get i with
  | none => none
  | some fs => some [Marker.beginMarker fs]

/-- Callback `on_exit` (lines 149-152): the id and context are ignored
(`_id`, `_ctx`); emit `TRACE_END!()` and leave the storage untouched. -/
def AtraceLayer.on_exit (l : AtraceLayer) (st : Store) (i : SpanId) :
    Store × List Marker :=
  (st, [Marker.endMarker])

/-- Callback `on_close` (lines 154-158): remove the span's `SpanFields` entry;
`expect` panics (modelled as `none`) when no live entry exists. -/
def AtraceLayer.on_close (l : AtraceLayer) (st : Store) (i : SpanId) : Option Store :=
  match st.get i with
  | none => none
  | some _ => some ⟨removeEntry st.entries i⟩

/-- Concatenation of a list of strings, used to state per-field
closed forms of the visitor folds. -/
def joinAll : List String → String
  | [] => ""
  | s :: rest => s ++ joinAll rest

/-- The text one field contributes in span-label mode (with
`futobj_field: None`), per the source arms of
`SpanVisitor::record_debug`. -/
def spanPiece (tracing_log : Bool) (f : Field) : String :=
  if f.name = "message" then " " ++ f.value
  else if tracing_log && strStarts f.name logDot then ""
  else " " ++ f.name ++ "=" ++ f.value

/-- The text one field contributes in event-marker mode, per the source
arms of `EventVisitor::record_debug`. -/
def eventPiece (tracing_log : Bool) (f : Field) : String :=
  if f.name = "message" then f.value ++ " "
  else if tracing_log && strStarts f.name logDot then ""
  else f.name ++ "=" ++ f.value ++ " "

/-- The span-label rendering claimed by the specification sentence
behind C1, read literally: the span's name, then every non-skipped field
comma-prefixed, `message` bare and any other field as `name=value`. -/
def claimSpanPiece (tracing_log : Bool) (f : Field) : String :=
  if f.name = "message" then "," ++ f.value
  else if tracing_log && strStarts f.name logDot then ""
  else "," ++ f.name ++ "=" ++ f.value

/-- The full claimed span label of C1: name, then each field
comma-prefixed in presented order. -/
def claimSpanLabel (tracing_log : Bool) (name : String) (fields : List Field) : String :=
  name ++ joinAll (fields.map (claimSpanPiece tracing_log))

/-- One `record_debug` step with no `futobj_field` appends exactly the
span-label piece of the field. -/
theorem record_debug_none (tl : Bool) (b : String) (f : Field) :
    SpanVisitor.record_debug tl { buf := b, futobj_field := none } f
      = { buf := b ++ spanPiece tl f, futobj_field := none } := by
  simp only [SpanVisitor.record_debug, spanPiece]
  by_cases h1 : f.name = "message"
  · simp [h1]
  · by_cases h2 : tl && strStarts f.name logDot
    · simp [h1, h2, String.append_empty]
    · simp [h1, h2]

/-- Visiting a field list with no `futobj_field` appends the
concatenation of the per-field span-label pieces, in presented order. -/
theorem record_buf (tl : Bool) (b : String) (fields : List Field) :
    (SpanVisitor.record tl { buf := b, futobj_field := none } fields).buf
      = b ++ joinAll (fields.map (spanPiece tl)) := by
  induction fields generalizing b with
  | nil => simp [SpanVisitor.record, joinAll, String.append_empty]
  | cons f fs ih =>
    have hstep : SpanVisitor.record tl { buf := b, futobj_field := none } (f :: fs)
        = SpanVisitor.record tl
            (SpanVisitor.record_debug tl { buf := b, futobj_field := none } f) fs := rfl
    rw [hstep, record_debug_none, ih]
    simp [joinAll, String.append_assoc]

/-- One event `record_debug` step appends exactly the event-marker piece
of the field. -/
theorem event_record_debug_buf (tl : Bool) (b : String) (f : Field) :
    EventVisitor.record_debug tl { buf := b } f = { buf := b ++ eventPiece tl f } := by
  simp only [EventVisitor.record_debug, eventPiece]
  by_cases h1 : f.name = "message"
  · simp [h1]
  · by_cases h2 : tl && strStarts f.name logDot
    · simp [h1, h2, String.append_empty]
    · simp [h1, h2]

/-- Visiting an event field list appends the concatenation of the
per-field event-marker pieces, in presented order. -/
theorem event_record_buf (tl : Bool) (b : String) (fields : List Field) :
    (EventVisitor.record tl { buf := b } fields).buf
      = b ++ joinAll (fields.map (eventPiece tl)) := by
  induction fields generalizing b with
  | nil => simp [EventVisitor.record, joinAll, String.append_empty]
  | cons f fs ih =>
    have hstep : EventVisitor.record tl { buf := b } (f :: fs)
        = EventVisitor.record tl (EventVisitor.record_debug tl { buf := b } f) fs := rfl
    rw [hstep, event_record_debug_buf, ih]
    simp [joinAll, String.append_assoc]

/-- Closed form of the shared label computation: the span's name, then,
when some field contributes text, one comma followed by the space-led
pieces. -/
theorem computeLabel_eq (tl : Bool) (nm : String) (fields : List Field) :
    computeLabel tl nm fields
      = (if joinAll (fields.map (spanPiece tl)) = "" then nm
         else nm ++ ("," ++ joinAll (fields.map (spanPiece tl)))) := by
  unfold computeLabel
  rw [record_buf, String.empty_append]
  by_cases h : joinAll (fields.map (spanPiece tl)) = ""
  · simp [h, String.isEmpty_iff]
  · simp [h, String.isEmpty_iff]

/-- Concatenation distributes over list append. -/
theorem joinAll_append (xs ys : List String) :
    joinAll (xs ++ ys) = joinAll xs ++ joinAll ys := by
  induction xs with
  | nil => simp [joinAll, String.empty_append]
  | cons x rest ih => simp [joinAll, ih, String.append_assoc]

/-- A name that starts with the reserved metadata prelude is not the
message name. -/
theorem logDot_ne_message (n : String) (h : strStarts n logDot = true) :
    n ≠ "message" := by
  intro he
  rw [he] at h
  exact absurd h (by decide)

/-- A reserved-prefixed field contributes the empty piece in span-label
mode when the skip rule is compiled in. -/
theorem spanPiece_skip (f : Field) (h : strStarts f.name logDot = true) :
    spanPiece true f = "" := by
  simp [spanPiece, logDot_ne_message f.name h, h]

/-- A reserved-prefixed field contributes the empty piece in
event-marker mode when the skip rule is compiled in. -/
theorem eventPiece_skip (f : Field) (h : strStarts f.name logDot = true) :
    eventPiece true f = "" := by
  simp [eventPiece, logDot_ne_message f.name h, h]

/-- A field list made only of reserved-prefixed fields joins to the
empty string in span-label mode. -/
theorem joinAll_spanPiece_skipped (fields : List Field)
    (h : ∀ g ∈ fields, strStarts g.name logDot = true) :
    joinAll (fields.map (spanPiece true)) = "" := by
  induction fields with
  | nil => rfl
  | cons f fs ih =>
    have hf := h f (List.mem_cons_self f fs)
    have hrest : ∀ g ∈ fs, strStarts g.name logDot = true := fun g hg =>
      h g (List.mem_cons_of_mem f hg)
    simp [joinAll, spanPiece_skip f hf, ih hrest, String.empty_append]

/-- A field list made only of reserved-prefixed fields joins to the
empty string in event-marker mode. -/
theorem joinAll_eventPiece_skipped (fields : List Field)
    (h : ∀ g ∈ fields, strStarts g.name logDot = true) :
    joinAll (fields.map (eventPiece true)) = "" := by
  induction fields with
  | nil => rfl
  | cons f fs ih =>
    have hf := h f (List.mem_cons_self f fs)
    have hrest : ∀ g ∈ fs, strStarts g.name logDot = true := fun g hg =>
      h g (List.mem_cons_of_mem f hg)
    simp [joinAll, eventPiece_skip f hf, ih hrest, String.empty_append]

/-- Looking up a span id right after storing a label for it finds that
label. -/
theorem lookupEntry_setEntry (es : List (SpanId × String)) (i : SpanId) (lb : String) :
    lookupEntry (setEntry es i lb) i = some lb := by
  induction es with
  | nil => simp [setEntry, lookupEntry]
  | cons kv rest ih =>
    obtain ⟨k, v⟩ := kv
    by_cases h : k = i
    · simp [setEntry, lookupEntry, h]
    · simp [setEntry, lookupEntry, h, ih]

/-- Looking up a span id right after removing its entry finds nothing. -/
theorem lookupEntry_removeEntry (es : List (SpanId × String)) (i : SpanId) :
    lookupEntry (removeEntry es i) i = none := by
  induction es with
  | nil => simp [removeEntry, lookupEntry]
  | cons kv rest ih =>
    obtain ⟨k, v⟩ := kv
    by_cases h : k = i
    · simp [removeEntry, lookupEntry, h, ih]
    · simp [removeEntry, lookupEntry, h, ih]

/-- Store-level reading of `lookupEntry_setEntry`. -/
theorem Store.get_set (st : Store) (i : SpanId) (lb : String) :
    (st.set i lb).get i = some lb := by
  simp [Store.get, Store.set, lookupEntry_setEntry]

/-- C1 counterexample: the claim says every appended field is
comma-prefixed, but for the span named s with fields x=1 and y=2 the
code stores the label "s, x=1 y=2" (one comma before the whole block,
fields space-separated), which differs from the claimed field-wise
comma-prefixed label "s,x=1,y=2". -/
theorem C1_counterexample :
    (AtraceLayer.on_new_span AtraceLayer.new false (Store.mk []) 1 ("s")
        [{ name := "x", value := "1" }, { name := "y", value := "2" }]).get 1
      = some ("s, x=1 y=2")
    ∧ claimSpanLabel false ("s")
        [{ name := "x", value := "1" }, { name := "y", value := "2" }]
      = ("s,x=1,y=2")
    ∧ ("s, x=1 y=2" : String) ≠ ("s,x=1,y=2") := by
  refine ⟨by decide, by decide, by decide⟩

/-- C1 (amended): the produced span label begins with the span's name;
the fields are appended in presented order to one growing buffer, each
piece space-prefixed, a field named message contributing its
debug-rendered value with no key prefix and every other non-skipped
field contributing name=value; the whole nonempty field block is
appended behind a single comma. -/
theorem C1_span_label_layout (l : AtraceLayer) (tl : Bool) (st : Store) (i : SpanId)
    (nm : String) (fields : List Field) :
    (AtraceLayer.on_new_span l tl st i nm fields).get i
      = some (if joinAll (fields.map (spanPiece tl)) = "" then nm
              else nm ++ ("," ++ joinAll (fields.map (spanPiece tl)))) := by
  unfold AtraceLayer.on_new_span
  rw [Store.get_set, computeLabel_eq]

/-- C2: for every span id with a live context record, enter emits
exactly one begin marker whose payload is exactly the label currently
stored for that id, and emits no other marker. -/
theorem C2_enter_emits_stored_label (l : AtraceLayer) (st : Store) (i : SpanId)
    (lb : String) (h : st.get i = some lb) :
    AtraceLayer.on_enter l st i = some [Marker.beginMarker lb] := by
  unfold AtraceLayer.on_enter
  rw [h]

/-- C2 witness: after the store holds the label span_a,x=1 for span 1,
entering span 1 emits exactly one begin marker with that payload. -/
theorem C2_enter_witness :
    (Store.mk [(1, "span_a,x=1")]).get 1 = some ("span_a,x=1")
    ∧ AtraceLayer.on_enter AtraceLayer.new (Store.mk [(1, "span_a,x=1")]) 1
        = some [Marker.beginMarker ("span_a,x=1")] :=
  ⟨by decide,
    C2_enter_emits_stored_label AtraceLayer.new (Store.mk [(1, "span_a,x=1")]) 1
      ("span_a,x=1") (by decide)⟩

/-- C3: processing an event emits exactly two markers in order: a begin
marker carrying the event-marker-mode rendering of the fields (the
pieces joined in presented order), then an end marker with empty
payload; never a single unpaired marker. -/
theorem C3_event_begin_end_pair (l : AtraceLayer) (tl : Bool) (fields : List Field) :
    AtraceLayer.on_event l tl fields
      = [Marker.beginMarker (joinAll (fields.map (eventPiece tl))), Marker.endMarker] := by
  unfold AtraceLayer.on_event
  rw [event_record_buf, String.empty_append]

/-- C4: for a span id with a live context record, on_record recomputes
the span-label text and writes it back only when it differs from the
stored text; the stored label afterwards is the recomputed text either
way, and when no write happens the store is completely untouched. -/
theorem C4_record_updates_only_on_change (l : AtraceLayer) (tl : Bool) (st : Store)
    (i : SpanId) (nm : String) (fields : List Field) (old : String)
    (h : st.get i = some old) :
    ∃ st2 wrote,
      AtraceLayer.on_record l tl st i nm fields = some (st2, wrote)
      ∧ (wrote = false ↔ computeLabel tl nm fields = old)
      ∧ st2.get i = some (computeLabel tl nm fields)
      ∧ (wrote = false → st2 = st) := by
  by_cases hc : computeLabel tl nm fields = old
  · refine ⟨st, false, ?_, ?_, ?_, ?_⟩
    · simp [AtraceLayer.on_record, h, hc]
    · simp [hc]
    · rw [hc]; exact h
    · intro _; rfl
  · refine ⟨st.set i (computeLabel tl nm fields), true, ?_, ?_, ?_, ?_⟩
    · simp [AtraceLayer.on_record, h, hc]
    · simp [hc]
    · exact Store.get_set st i _
    · intro hfalse; exact absurd hfalse (by simp)

/-- C4 witness: recording the empty field set on a span named s whose
stored label is already s succeeds without a redundant write. -/
theorem C4_record_witness :
    (Store.mk [(1, "s")]).get 1 = some ("s")
    ∧ ∃ st2 wrote,
        AtraceLayer.on_record AtraceLayer.new false (Store.mk [(1, "s")]) 1 ("s") []
          = some (st2, wrote)
        ∧ (wrote = false ↔ computeLabel false ("s") [] = ("s"))
        ∧ st2.get 1 = some (computeLabel false ("s") [])
        ∧ (wrote = false → st2 = Store.mk [(1, "s")]) :=
  ⟨by decide,
    C4_record_updates_only_on_change AtraceLayer.new false (Store.mk [(1, "s")]) 1
      ("s") [] ("s") (by decide)⟩

/-- C5: exit emits exactly one end marker with empty payload, leaves
the context store unchanged, and its emission does not depend on the
span id or on the store contents (no lookup is performed). -/
theorem C5_exit_end_marker_only (l l2 : AtraceLayer) (st st2 : Store) (i i2 : SpanId) :
    AtraceLayer.on_exit l st i = (st, [Marker.endMarker])
    ∧ (AtraceLayer.on_exit l st i).2 = (AtraceLayer.on_exit l2 st2 i2).2 :=
  ⟨rfl, rfl⟩

/-- C6: an empty field sequence yields the bare span name as the stored
label (no trailing separator) in span-label mode, and the empty string
as the begin payload in event-marker mode. -/
theorem C6_empty_field_sequence (l : AtraceLayer) (tl : Bool) (st : Store) (i : SpanId)
    (nm : String) :
    (AtraceLayer.on_new_span l tl st i nm []).get i = some nm
    ∧ AtraceLayer.on_event l tl [] = [Marker.beginMarker "", Marker.endMarker] := by
  constructor
  · unfold AtraceLayer.on_new_span
    rw [Store.get_set, computeLabel_eq]
    simp [joinAll]
  · unfold AtraceLayer.on_event
    rw [event_record_buf]
    simp [joinAll, String.append_empty]

/-- C7: with the skip rule compiled in, a field whose name starts with
log. contributes nothing to the rendered text in either mode (deleting
it from the presented sequence leaves the output unchanged), and a
field set made only of such fields renders as the empty string in both
modes. -/
theorem C7_reserved_prefixed_fields_skipped (pre post fields : List Field) (f : Field)
    (h : strStarts f.name logDot = true)
    (h2 : ∀ g ∈ fields, strStarts g.name logDot = true) :
    (SpanVisitor.record true { buf := "", futobj_field := none } (pre ++ f :: post)).buf
        = (SpanVisitor.record true { buf := "", futobj_field := none } (pre ++ post)).buf
    ∧ (EventVisitor.record true { buf := "" } (pre ++ f :: post)).buf
        = (EventVisitor.record true { buf := "" } (pre ++ post)).buf
    ∧ (SpanVisitor.record true { buf := "", futobj_field := none } fields).buf = ""
    ∧ (EventVisitor.record true { buf := "" } fields).buf = "" := by
  refine ⟨?_, ?_, ?_, ?_⟩
  · rw [record_buf, record_buf]
    simp [List.map_append, joinAll_append, joinAll, spanPiece_skip f h,
      String.empty_append]
  · rw [event_record_buf, event_record_buf]
    simp [List.map_append, joinAll_append, joinAll, eventPiece_skip f h,
      String.empty_append]
  · rw [record_buf, joinAll_spanPiece_skipped fields h2]
    simp [String.append_empty]
  · rw [event_record_buf, joinAll_eventPiece_skipped fields h2]
    simp [String.append_empty]

/-- C7 witness: dropping the reserved-prefixed field log.x from a
concrete sequence leaves both renderings unchanged, and a field set
holding only log.y renders empty in both modes. -/
theorem C7_skip_witness :
    (SpanVisitor.record true { buf := "", futobj_field := none }
        ([{ name := "a", value := "1" }]
          ++ { name := "log.x", value := "2" } :: [{ name := "b", value := "4" }])).buf
      = (SpanVisitor.record true { buf := "", futobj_field := none }
          ([{ name := "a", value := "1" }] ++ [{ name := "b", value := "4" }])).buf
    ∧ (EventVisitor.record true { buf := "" }
        ([{ name := "a", value := "1" }]
          ++ { name := "log.x", value := "2" } :: [{ name := "b", value := "4" }])).buf
      = (EventVisitor.record true { buf := "" }
          ([{ name := "a", value := "1" }] ++ [{ name := "b", value := "4" }])).buf
    ∧ (SpanVisitor.record true { buf := "", futobj_field := none }
        [{ name := "log.y", value := "3" }]).buf = ""
    ∧ (EventVisitor.record true { buf := "" } [{ name := "log.y", value := "3" }]).buf
        = "" :=
  C7_reserved_prefixed_fields_skipped [{ name := "a", value := "1" }]
    [{ name := "b", value := "4" }] [{ name := "log.y", value := "3" }]
    { name := "log.x", value := "2" } (by decide) (by decide)

/-- C8: enter, record and close on a span id with no live context
record each abort with no effect instead of fabricating a context, and
close removes the record, so after any successful close the id has no
live record (hence a subsequent enter or close for it fails). -/
theorem C8_missing_entry_fails (l : AtraceLayer) (tl : Bool) (st : Store) (i : SpanId)
    (nm : String) (fields : List Field) (h : st.get i = none) :
    AtraceLayer.on_enter l st i = none
    ∧ AtraceLayer.on_record l tl st i nm fields = none
    ∧ AtraceLayer.on_close l st i = none
    ∧ ∀ st0 st1 : Store, AtraceLayer.on_close l st0 i = some st1 → st1.get i = none := by
  refine ⟨?_, ?_, ?_, ?_⟩
  · unfold AtraceLayer.on_enter; rw [h]
  · unfold AtraceLayer.on_record; rw [h]
  · unfold AtraceLayer.on_close; rw [h]
  · intro st0 st1 hc
    unfold AtraceLayer.on_close at hc
    cases hg : st0.get i with
    | none => rw [hg] at hc; cases hc
    | some lb =>
      rw [hg] at hc
      have hst1 : Store.mk (removeEntry st0.entries i) = st1 := by
        exact Option.some.inj hc
      rw [← hst1]
      simp [Store.get, lookupEntry_removeEntry]

/-- C8 witness: on the empty store, enter, record and close of span 1
all fail, and every successful close leaves the closed id without a
live record. -/
theorem C8_contract_witness :
    (Store.mk []).get 1 = none
    ∧ (AtraceLayer.on_enter AtraceLayer.new (Store.mk []) 1 = none
      ∧ AtraceLayer.on_record AtraceLayer.new true (Store.mk []) 1 ("s") [] = none
      ∧ AtraceLayer.on_close AtraceLayer.new (Store.mk []) 1 = none
      ∧ ∀ st0 st1 : Store,
          AtraceLayer.on_close AtraceLayer.new st0 1 = some st1 → st1.get 1 = none) :=
  ⟨by decide,
    C8_missing_entry_fails AtraceLayer.new true (Store.mk []) 1 ("s") [] (by decide)⟩

/-- C9: with the data-field option set to data, a span field named data
is still rendered as name=value rather than bare, because on_new_span
and on_record construct their visitor with futobj_field None and never
consult the stored data_field: the produced labels are independent of
the layer configuration altogether. -/
theorem C9_data_field_unused :
    (AtraceLayer.on_new_span (AtraceLayer.with_data_field AtraceLayer.new (some "data"))
        false (Store.mk []) 1 ("s") [{ name := "data", value := "7" }]).get 1
      = some ("s, data=7")
    ∧ ∀ (l1 l2 : AtraceLayer) (tl : Bool) (st : Store) (i : SpanId) (nm : String)
        (fs : List Field),
        AtraceLayer.on_new_span l1 tl st i nm fs = AtraceLayer.on_new_span l2 tl st i nm fs
        ∧ AtraceLayer.on_record l1 tl st i nm fs
            = AtraceLayer.on_record l2 tl st i nm fs := by
  refine ⟨by decide, ?_⟩
  intro l1 l2 tl st i nm fs
  exact ⟨rfl, rfl⟩

/-- C10: an event whose field set is empty, or consists only of skipped
reserved-prefixed fields, still emits the full pair: a begin marker
with empty payload followed by an end marker. -/
theorem C10_event_empty_still_pairs (l : AtraceLayer) (fields : List Field)
    (h : ∀ g ∈ fields, strStarts g.name logDot = true) :
    AtraceLayer.on_event l true fields = [Marker.beginMarker "", Marker.endMarker]
    ∧ ∀ (l2 : AtraceLayer) (tl : Bool),
        AtraceLayer.on_event l2 tl [] = [Marker.beginMarker "", Marker.endMarker] := by
  constructor
  · unfold AtraceLayer.on_event
    rw [event_record_buf, joinAll_eventPiece_skipped fields h]
    simp [String.append_empty]
  · intro l2 tl
    unfold AtraceLayer.on_event
    rw [event_record_buf]
    simp [joinAll, String.append_empty]

/-- C10 witness: an event carrying only the skipped field log.z, and an
event carrying no field at all, both emit the empty-payload begin/end
pair. -/
theorem C10_event_witness :
    AtraceLayer.on_event AtraceLayer.new true [{ name := "log.z", value := "1" }]
        = [Marker.beginMarker "", Marker.endMarker]
    ∧ ∀ (l2 : AtraceLayer) (tl : Bool),
        AtraceLayer.on_event l2 tl [] = [Marker.beginMarker "", Marker.endMarker] :=
  C10_event_empty_still_pairs AtraceLayer.new [{ name := "log.z", value := "1" }]
    (by decide)

end TracingAtrace
